import Mathlib

/-!
# Scene-graph composition core: shallow embedding

This file embeds the `Scene` service helper of `src/app/services/user.ts`
(the scene-graph composition core) in Lean 4 and proves / refutes the
specification's claims about it.

Modelling conventions:

* The Vuex store `scenesService.state.scenes` is a keyed collection of scene
  records; we model it as a `List IScene` looked up by the record's `id`
  field (`getScene`).  The `SourceRegistry` is a `List SourceRec` looked up
  by `sourceId` (`getSource`).
* JavaScript numbers used for geometry are modelled as `Rat`; no arithmetic
  is ever performed on them by the embedded code, they are only stored,
  defaulted and compared.
* The recursive graph walks (`hasNestedScene`, `getNestedItems`) are raw
  (unranked) recursions in the source.  They are embedded with an explicit
  `fuel : Nat` bound on the recursion depth: a result `none` at every fuel
  means the JavaScript recursion never returns (divergence), and `none`
  also models an abnormal termination (a crash such as dereferencing a
  missing scene record), which likewise is not a normal return.
* A JavaScript `throw` is modelled as `Except.error`; a normal return as
  `Except.ok`.  Operations return the (possibly updated) scene store so
  that "the store is unchanged on failure" is expressible.
* Calls into the native compositing backend (`getObsScene`, `moveItem`,
  `obs.addItems`, selection toggles) do not touch the logical store; the
  backend-generated numeric item handles are passed in as parameters
  (`obsId`, `obsIds`).
-/

namespace Slobs

/-- Per-item crop rectangle (all sides default 0). -/
structure Crop where
  top : Rat
  bottom : Rat
  left : Rat
  right : Rat
deriving DecidableEq, Repr

/-- One row of per-item state, as stored in the scene record
(`ISceneItem` in the source). -/
structure ISceneItem where
  sceneItemId : String
  sourceId : String
  obsSceneItemId : Nat
  x : Rat
  y : Rat
  scaleX : Rat
  scaleY : Rat
  visible : Bool
  crop : Crop
  rotation : Rat
  locked : Bool
deriving DecidableEq, Repr

/-- A scene record of the state store (`IScene` in the source). -/
structure IScene where
  id : String
  name : String
  items : List ISceneItem
  activeItemIds : List String
deriving DecidableEq, Repr

/-- A source descriptor held by the SourceRegistry: an opaque id plus a
type tag; the tag value "scene" marks a source that is itself a scene. -/
structure SourceRec where
  sourceId : String
  type : String
deriving DecidableEq, Repr

/-- Modelled from the spec: `SourcesService.getSource` (the sources service
is not under `src/`); the SourceRegistry interface of §6 resolves a source
id to its descriptor, `none` when the id is unknown. -/
def getSource (sources : List SourceRec) (sourceId : String) : Option SourceRec :=
  sources.find? (fun s => s.sourceId == sourceId)

/-- Modelled from the spec: `ScenesService.getScene` / the store lookup
`scenesService.state.scenes[sceneId]` (the scenes service is not under
`src/`); resolves a scene id to its record, `none` when unknown (the source
leaves the unknown-id case as undefined behavior, §6). -/
def getScene (scenes : List IScene) (sceneId : String) : Option IScene :=
  scenes.find? (fun s => s.id == sceneId)

/-- `Scene.getItem`: find the item record with the given `sceneItemId`. -/
def getItem (scene : IScene) (sceneItemId : String) : Option ISceneItem :=
  scene.items.find? (fun it => it.sceneItemId == sceneItemId)

/-- Modelled from the spec: `SceneItem.type` (the `SceneItem` class is not
under `src/`) is the owning source's type tag, resolved through the
SourceRegistry (§3: the core treats a source as an opaque id + type tag). -/
def itemType (sources : List SourceRec) (it : ISceneItem) : Option String :=
  (getSource sources it.sourceId).map (fun s => s.type)

/-- The scene ids referenced by this scene's items whose source is itself a
scene, in stored item order (the `childScenes` computation of
`hasNestedScene` / `getNestedItems`). -/
def childSceneIds (sources : List SourceRec) (scene : IScene) : List String :=
  (scene.items.filter (fun it => itemType sources it == some "scene")).map
    (fun it => it.sourceId)

/-- Write an updated record for `sceneId` back into the store (the source
mutates `this.sceneState` in place; the store is keyed by id). -/
def updateScene (scenes : List IScene) (sceneId : String) (newScene : IScene) :
    List IScene :=
  scenes.map (fun s => if s.id == sceneId then newScene else s)

/-- Mutation `SET_NAME`. -/
def SET_NAME (scene : IScene) (newName : String) : IScene :=
  { scene with name := newName }

/-- Mutation `MAKE_SOURCES_ACTIVE`: replaces `activeItemIds` wholesale. -/
def MAKE_SOURCES_ACTIVE (scene : IScene) (sceneItemIds : List String) : IScene :=
  { scene with activeItemIds := sceneItemIds }

/-- Mutation `ADD_SOURCE_TO_SCENE`: unshifts a fresh record with default
geometry onto the front of `items`. -/
def ADD_SOURCE_TO_SCENE (scene : IScene) (sceneItemId : String)
    (sourceId : String) (obsSceneItemId : Nat) : IScene :=
  { scene with items :=
      { sceneItemId := sceneItemId
        sourceId := sourceId
        obsSceneItemId := obsSceneItemId
        x := 0
        y := 0
        scaleX := 1
        scaleY := 1
        visible := true
        crop := { top := 0, bottom := 0, left := 0, right := 0 }
        rotation := 0
        locked := false } :: scene.items }

/-- lodash `_.without`: remove every occurrence of `x`. -/
def without (l : List String) (x : String) : List String :=
  l.filter (fun y => y != x)

/-- Mutation `REMOVE_SOURCE_FROM_SCENE`. -/
def REMOVE_SOURCE_FROM_SCENE (scene : IScene) (sceneItemId : String) : IScene :=
  { scene with
      activeItemIds :=
        if scene.activeItemIds.contains sceneItemId then
          without scene.activeItemIds sceneItemId
        else scene.activeItemIds
      items := scene.items.filter (fun s => s.sceneItemId != sceneItemId) }

/-- The body of mutation `SET_SOURCE_ORDER`: `order.map(id => items.find(...))`.
In JavaScript an id without a matching item yields an `undefined` slot in the
typed item array (a corrupted store); we model that outcome as `none`. -/
def lookupOrder (items : List ISceneItem) : List String → Option (List ISceneItem)
  | [] => some []
  | id :: rest =>
    match items.find? (fun s => s.sceneItemId == id) with
    | none => none
    | some it => (lookupOrder items rest).map (fun l => it :: l)

/-- Mutation `SET_SOURCE_ORDER`. -/
def SET_SOURCE_ORDER (scene : IScene) (order : List String) : Option IScene :=
  (lookupOrder scene.items order).map (fun items => { scene with items := items })

/-- The `for (const childScene of childScenes)` loop of `hasNestedScene`:
`recur` is the recursive call at one less fuel.  Dereferencing a missing
child scene record (`childScene.id` on `undefined`) is abnormal: `none`. -/
def hasNestedLoop (scenes : List IScene) (recur : String → Option Bool)
    (sceneId : String) : List String → Option Bool
  | [] => some false
  | c :: rest =>
    match getScene scenes c with
    | none => none
    | some _ =>
      if c == sceneId then some true
      else
        match recur c with
        | none => none
        | some true => some true
        | some false => hasNestedLoop scenes recur sceneId rest

/-- `Scene.hasNestedScene`, embedded with an explicit recursion-depth bound
`fuel`; the source recursion is unranked, so `none` at every fuel means the
JavaScript call never returns. -/
def hasNestedScene (sources : List SourceRec) (scenes : List IScene) :
    Nat → String → String → Option Bool
  | 0, _, _ => none
  | Nat.succ fuel, selfId, sceneId =>
    match getScene scenes selfId with
    | none => none
    | some scene =>
      hasNestedLoop scenes (fun c => hasNestedScene sources scenes fuel c sceneId)
        sceneId (childSceneIds sources scene)

/-- `Scene.canAddSource`. -/
def canAddSource (sources : List SourceRec) (scenes : List IScene) (fuel : Nat)
    (selfId : String) (sourceId : String) : Option Bool :=
  match getSource sources sourceId with
  | none => some false
  | some source =>
    if source.type != "scene" then some true
    else if selfId == source.sourceId then some false
    else (hasNestedScene sources scenes fuel source.sourceId selfId).map
      (fun b => !b)

/-- `Scene.addSource`.  `optItemId` is `options.sceneItemId`, `freshId` the
value the injected unique-id provider would return, `obsId` the native item
handle created by the compositing backend.  The trailing
`sceneItem.loadAttributes()` of the source is modelled from the spec as the
identity on the stored record: per §4.2 it reconciles the backend's
defaults for a freshly created native item into the logical record, and
those defaults coincide with the defaults `ADD_SOURCE_TO_SCENE` wrote
(§8 Scenario 1). -/
def addSource (sources : List SourceRec) (scenes : List IScene) (fuel : Nat)
    (selfId : String) (sourceId : String) (optItemId : Option String)
    (freshId : String) (obsId : Nat) :
    Option (Except String (Option String) × List IScene) :=
  match getSource sources sourceId with
  | none => some (Except.error ("Source " ++ sourceId ++ " not found"), scenes)
  | some source =>
    match canAddSource sources scenes fuel selfId sourceId with
    | none => none
    | some false => some (Except.ok none, scenes)
    | some true =>
      match getScene scenes selfId with
      | none => none
      | some scene =>
        let sceneItemId := optItemId.getD freshId
        let scene1 := ADD_SOURCE_TO_SCENE scene sceneItemId source.sourceId obsId
        let scene2 := MAKE_SOURCES_ACTIVE scene1 [sceneItemId]
        some (Except.ok (some sceneItemId), updateScene scenes selfId scene2)

/-- `Scene.removeItem`. -/
def removeItem (scenes : List IScene) (selfId : String) (sceneItemId : String) :
    Option (Except String Unit × List IScene) :=
  match getScene scenes selfId with
  | none => none
  | some scene =>
    match getItem scene sceneItemId with
    | none =>
      some (Except.error ("SceneItem " ++ sceneItemId ++ " not found"), scenes)
    | some _ =>
      some (Except.ok (),
        updateScene scenes selfId (REMOVE_SOURCE_FROM_SCENE scene sceneItemId))

/-- `Scene.makeItemsActive`.  The source first maps every requested id
through `this.getItem(itemId).obsSceneItemId`; an id without an item makes
that dereference throw before the mutation runs. -/
def makeItemsActive (scenes : List IScene) (selfId : String)
    (sceneItemIds : List String) : Option (Except String Unit × List IScene) :=
  match getScene scenes selfId with
  | none => none
  | some scene =>
    if sceneItemIds.all (fun id => (getItem scene id).isSome) then
      some (Except.ok (),
        updateScene scenes selfId (MAKE_SOURCES_ACTIVE scene sceneItemIds))
    else
      some (Except.error "TypeError: cannot read obsSceneItemId of null", scenes)

/-- `Scene.setSourceOrder`.  `sceneItemId` and `positionDelta` only drive the
backend `moveItem` command, which does not touch the logical store. -/
def setSourceOrder (scenes : List IScene) (selfId : String)
    (sceneItemId : String) (positionDelta : Int) (order : List String) :
    Option (List IScene) :=
  match getScene scenes selfId with
  | none => none
  | some scene =>
    (SET_SOURCE_ORDER scene order).map (updateScene scenes selfId)

/-- `Scene.setName`: renames the owning source (outside the scene store;
the source record carries no name in this model) and applies `SET_NAME`;
a missing owning source makes the rename dereference crash. -/
def setName (sources : List SourceRec) (scenes : List IScene) (selfId : String)
    (newName : String) : Option (List IScene) :=
  match getSource sources selfId with
  | none => none
  | some _ =>
    match getScene scenes selfId with
    | none => none
    | some scene => some (updateScene scenes selfId (SET_NAME scene newName))

/-- The persisted item shape accepted by `Scene.addSources`
(`ISceneItemInfo`): unset numeric fields are `none`. -/
structure ISceneItemInfo where
  id : String
  sourceId : String
  crop : Crop
  scaleX : Option Rat
  scaleY : Option Rat
  visible : Bool
  x : Option Rat
  y : Option Rat
  locked : Bool
  rotation : Option Rat
deriving DecidableEq, Repr

/-- The combined record `addSources` pushes onto `arrayItems` (numeric
defaults applied: scale 1, position 0, rotation 0). -/
structure ArrayItem where
  name : String
  id : String
  sourceId : String
  crop : Crop
  scaleX : Rat
  scaleY : Rat
  visible : Bool
  x : Rat
  y : Rat
  locked : Bool
  rotation : Rat
deriving DecidableEq, Repr

/-- Building one `arrayItems` entry in `Scene.addSources` (`item.rotation || 0`
agrees with `getD 0` because the only falsy `Rat` is `0`). -/
def toArrayItem (source : SourceRec) (item : ISceneItemInfo) : ArrayItem :=
  { name := source.sourceId
    id := item.id
    sourceId := source.sourceId
    crop := item.crop
    scaleX := item.scaleX.getD 1
    scaleY := item.scaleY.getD 1
    visible := item.visible
    x := item.x.getD 0
    y := item.y.getD 0
    locked := item.locked
    rotation := item.rotation.getD 0 }

/-- Replace the first item whose `sceneItemId` matches. -/
def updateFirstItem (f : ISceneItem → ISceneItem) (sceneItemId : String) :
    List ISceneItem → List ISceneItem
  | [] => []
  | it :: rest =>
    if it.sceneItemId == sceneItemId then f it :: rest
    else it :: updateFirstItem f sceneItemId rest

/-- Modelled from the spec: `SceneItem.loadItemAttributes` (the `SceneItem`
class is not under `src/`) bulk-loads position/scale/crop/rotation/
visibility/lock from the backend item spec into the logical record (§4.2). -/
def applyItemAttributes (a : ArrayItem) (it : ISceneItem) : ISceneItem :=
  { it with
      x := a.x
      y := a.y
      scaleX := a.scaleX
      scaleY := a.scaleY
      visible := a.visible
      crop := a.crop
      rotation := a.rotation
      locked := a.locked }

/-- Modelled from the spec: the `this.getItem(items[index].id).loadItemAttributes`
step of `addSources`; `getItem` finds the first record with that id. -/
def loadItemAttributes (scene : IScene) (sceneItemId : String) (a : ArrayItem) :
    IScene :=
  { scene with items := updateFirstItem (applyItemAttributes a) sceneItemId scene.items }

/-- The `arrayItems.forEach((sceneItem, index) => ...)` loop of
`Scene.addSources`.  The JavaScript loop indexes the ORIGINAL `items`
argument with the running index of the filtered `arrayItems` array; since
the index starts at 0 and increments by one per iteration, reading
`items[index]` is consuming the original list in order, which is how the
remaining suffix `infosRest` models it (`none` models the `undefined`
dereference when the original list is exhausted). -/
def addSourcesLoop (obsIds : Nat → Nat) :
    Nat → List ISceneItemInfo → List ArrayItem → IScene → Option IScene
  | _, _, [], scene => some scene
  | idx, infosRest, a :: arsRest, scene =>
    match infosRest with
    | [] => none
    | info :: infosRest2 =>
      let scene1 := ADD_SOURCE_TO_SCENE scene info.id info.sourceId (obsIds idx)
      let scene2 := loadItemAttributes scene1 info.id a
      addSourcesLoop obsIds (idx + 1) infosRest2 arsRest scene2

/-- `Scene.addSources` (bulk restore): entries whose source does not resolve
are skipped when building `arrayItems`; `obsIds` are the native handles
returned by `obs.addItems`, one per `arrayItems` entry. -/
def addSources (sources : List SourceRec) (scenes : List IScene) (selfId : String)
    (infos : List ISceneItemInfo) (obsIds : Nat → Nat) : Option (List IScene) :=
  match getScene scenes selfId with
  | none => none
  | some scene =>
    let arrayItems := infos.filterMap
      (fun item => (getSource sources item.sourceId).map
        (fun s => toArrayItem s item))
    (addSourcesLoop obsIds 0 infos arrayItems scene).map (updateScene scenes selfId)

/-- First-occurrence-wins deduplication by `sceneItemId`
(lodash `_.uniqBy(result, 'sceneItemId')`), with an explicit seen set. -/
def dedupBy (seen : List String) : List ISceneItem → List ISceneItem
  | [] => []
  | it :: rest =>
    if seen.contains it.sceneItemId then dedupBy seen rest
    else it :: dedupBy (it.sceneItemId :: seen) rest

/-- The `.map(child => child.getNestedItems()).forEach(concat)` part of
`getNestedItems`: concatenate the recursive results of all child scenes,
propagating abnormal results. -/
def nestedLoop (recur : String → Option (List ISceneItem)) :
    List String → Option (List ISceneItem)
  | [] => some []
  | c :: rest =>
    match recur c with
    | none => none
    | some l => (nestedLoop recur rest).map (fun ls => l ++ ls)

/-- `Scene.getNestedItems` (with the default `excludeScenes: false`),
embedded with a recursion-depth bound like `hasNestedScene`. -/
def getNestedItems (sources : List SourceRec) (scenes : List IScene) :
    Nat → String → Option (List ISceneItem)
  | 0, _ => none
  | Nat.succ fuel, selfId =>
    match getScene scenes selfId with
    | none => none
    | some scene =>
      match nestedLoop (fun c => getNestedItems sources scenes fuel c)
          (childSceneIds sources scene) with
      | none => none
      | some nested => some (dedupBy [] (scene.items ++ nested))

/-- Spec-level companion of `getNestedItems`: the raw depth-first traversal
(this scene's items followed by each nested scene's traversal) WITHOUT any
deduplication, used to state the refinement "the result is the depth-first
traversal deduplicated by `sceneItemId`, first occurrence wins". -/
def nestedTraversal (sources : List SourceRec) (scenes : List IScene) :
    Nat → String → Option (List ISceneItem)
  | 0, _ => none
  | Nat.succ fuel, selfId =>
    match getScene scenes selfId with
    | none => none
    | some scene =>
      match nestedLoop (fun c => nestedTraversal sources scenes fuel c)
          (childSceneIds sources scene) with
      | none => none
      | some nested => some (scene.items ++ nested)

/-- The `sceneItemId` column of an item list. -/
def idsOf (items : List ISceneItem) : List String :=
  items.map (fun it => it.sceneItemId)

/-- The two store invariants of §3: every active id has an item, and no
`sceneItemId` occurs twice. -/
def sceneInvariant (scene : IScene) : Prop :=
  (∀ id ∈ scene.activeItemIds, id ∈ idsOf scene.items) ∧ (idsOf scene.items).Nodup

instance (scene : IScene) : Decidable (sceneInvariant scene) := by
  unfold sceneInvariant; infer_instance

/-- One scene directly references another as a child (an item of `a` whose
source is a scene with id `b`). -/
def childEdgeB (sources : List SourceRec) (scenes : List IScene) (a b : String) :
    Bool :=
  match getScene scenes a with
  | none => false
  | some scene => (childSceneIds sources scene).contains b

/-- Transitive containment in the derived scene graph: `Reaches a b` holds
when scene `a` (transitively) contains scene `b`. -/
inductive Reaches (sources : List SourceRec) (scenes : List IScene) :
    String → String → Prop
  | direct {a b : String} (h : childEdgeB sources scenes a b = true) :
      Reaches sources scenes a b
  | step {a b c : String} (h : childEdgeB sources scenes a b = true)
      (hr : Reaches sources scenes b c) : Reaches sources scenes a c

/-- A rank function witnessing acyclicity of the derived scene graph,
stated over the stored records so it is decidable on concrete stores. -/
def rankDecreasing (sources : List SourceRec) (scenes : List IScene)
    (rank : String → Nat) : Prop :=
  ∀ s ∈ scenes, ∀ it ∈ s.items,
    itemType sources it = some "scene" → rank it.sourceId < rank s.id

instance (sources : List SourceRec) (scenes : List IScene) (rank : String → Nat) :
    Decidable (rankDecreasing sources scenes rank) := by
  unfold rankDecreasing
  infer_instance

/-- Every scene referenced as a child by some stored scene has a record of
its own (well-formedness of the derived graph). -/
def scenesClosed (sources : List SourceRec) (scenes : List IScene) : Prop :=
  ∀ s ∈ scenes, ∀ it ∈ s.items,
    itemType sources it = some "scene" → (getScene scenes it.sourceId).isSome

instance (sources : List SourceRec) (scenes : List IScene) :
    Decidable (scenesClosed sources scenes) := by
  unfold scenesClosed
  infer_instance

/-- A fuel-indexed query that never returns: the modelled recursion
diverges. -/
def divergesOn (f : Nat → Option Bool) : Prop := ∀ fuel, f fuel = none

/-! ## Concrete stores (used by witnesses and counterexamples) -/

/-- An item record with default geometry, as `ADD_SOURCE_TO_SCENE` creates it. -/
def exItem (sceneItemId sourceId : String) (obsSceneItemId : Nat) : ISceneItem :=
  { sceneItemId := sceneItemId
    sourceId := sourceId
    obsSceneItemId := obsSceneItemId
    x := 0
    y := 0
    scaleX := 1
    scaleY := 1
    visible := true
    crop := { top := 0, bottom := 0, left := 0, right := 0 }
    rotation := 0
    locked := false }

/-- Registry with a camera source and two scene sources. -/
def exSources : List SourceRec :=
  [ { sourceId := "cam", type := "video" }
  , { sourceId := "S1", type := "scene" }
  , { sourceId := "S2", type := "scene" } ]

/-- Scene `S1`, containing one item that references scene `S2`. -/
def exScene1 : IScene :=
  { id := "S1", name := "one", items := [exItem "i12" "S2" 1], activeItemIds := [] }

/-- Scene `S2`, empty. -/
def exScene2 : IScene :=
  { id := "S2", name := "two", items := [], activeItemIds := [] }

/-- Store where scene `S1` contains an item referencing scene `S2`,
and `S2` is empty. -/
def exScenes : List IScene := [exScene1, exScene2]

/-- A rank function witnessing acyclicity of `exScenes`. -/
def exRank (id : String) : Nat :=
  if id == "S1" then 1 else 0

/-- A scene holding a camera item `a0`, which is active. -/
def exSceneA : IScene :=
  { id := "S1", name := "one", items := [exItem "a0" "cam" 1],
    activeItemIds := ["a0"] }

/-- Store with one scene holding a camera item `a0`, which is active. -/
def exScenesA : List IScene := [exSceneA]

/-- `exScenesA` after `addSource` of `cam` with fresh id `n1` and backend
handle 5: the new record sits at the front and the active set was replaced. -/
def exSceneAAfter : IScene :=
  { id := "S1", name := "one", items := [exItem "n1" "cam" 5, exItem "a0" "cam" 1],
    activeItemIds := ["n1"] }

/-- `exScenesA` after `addSource` of `cam` with the caller-supplied
`sceneItemId` `"a0"` that already names an item: a duplicate record. -/
def exSceneDupAfter : IScene :=
  { id := "S1", name := "one", items := [exItem "a0" "cam" 5, exItem "a0" "cam" 1],
    activeItemIds := ["a0"] }

/-- Malformed cyclic store: scene `A` contains scene `B` and `B` contains
`A`. -/
def cycSources : List SourceRec :=
  [ { sourceId := "A", type := "scene" }, { sourceId := "B", type := "scene" } ]

/-- The scene records of the malformed cyclic store. -/
def cycScenes : List IScene :=
  [ { id := "A", name := "a", items := [exItem "iAB" "B" 1], activeItemIds := [] }
  , { id := "B", name := "b", items := [exItem "iBA" "A" 2], activeItemIds := [] } ]

/-- The `hasNestedScene` query run on the cyclic store for a scene id that
occurs nowhere, indexed by fuel. -/
def cycQuery (fuel : Nat) : Option Bool :=
  hasNestedScene cycSources cycScenes fuel "A" "X"

/-- Diamond-shaped store: `S` contains scenes `A` and `B`, both of which
contain scene `C`, so `C` is reachable along two paths. -/
def dSources : List SourceRec :=
  [ { sourceId := "S", type := "scene" }, { sourceId := "A", type := "scene" }
  , { sourceId := "B", type := "scene" }, { sourceId := "C", type := "scene" }
  , { sourceId := "cam", type := "video" } ]

/-- The scene records of the diamond-shaped store. -/
def dScenes : List IScene :=
  [ { id := "S", name := "s", items := [exItem "sA" "A" 1, exItem "sB" "B" 2],
      activeItemIds := [] }
  , { id := "A", name := "a", items := [exItem "aC" "C" 3], activeItemIds := [] }
  , { id := "B", name := "b", items := [exItem "bC" "C" 4], activeItemIds := [] }
  , { id := "C", name := "c", items := [exItem "cCam" "cam" 5], activeItemIds := [] } ]

/-- A scene holding two camera items `a` and `b`, with `a` active. -/
def exSceneOrd : IScene :=
  { id := "S3", name := "three",
    items := [exItem "a" "cam" 1, exItem "b" "cam" 2], activeItemIds := ["a"] }

/-- Store with one scene holding two camera items `a` and `b`. -/
def exScenesOrd : List IScene := [exSceneOrd]

/-! ## Basic lookup lemmas -/

lemma getScene_id {scenes : List IScene} {sceneId : String} {s : IScene}
    (h : getScene scenes sceneId = some s) : s.id = sceneId := by
  have hp := List.find?_some h
  exact eq_of_beq hp

lemma getScene_mem {scenes : List IScene} {sceneId : String} {s : IScene}
    (h : getScene scenes sceneId = some s) : s ∈ scenes :=
  List.mem_of_find?_eq_some h

lemma getSource_id {sources : List SourceRec} {sourceId : String} {s : SourceRec}
    (h : getSource sources sourceId = some s) : s.sourceId = sourceId := by
  have hp := List.find?_some h
  exact eq_of_beq hp

lemma getScene_updateScene {scenes : List IScene} {sceneId : String}
    {old newScene : IScene} (h : getScene scenes sceneId = some old)
    (hid : newScene.id = sceneId) :
    getScene (updateScene scenes sceneId newScene) sceneId = some newScene := by
  induction scenes with
  | nil => simp [getScene] at h
  | cons s rest ih =>
    by_cases hs : s.id = sceneId
    · simp [getScene, updateScene, List.find?, hs, hid]
    · have hbeq : (s.id == sceneId) = false := beq_eq_false_iff_ne.mpr hs
      simp only [getScene, List.find?, hbeq] at h
      simpa [getScene, updateScene, List.find?, hbeq] using ih h

lemma getScene_updateScene_of_id {scenes : List IScene} {sceneId : String}
    {old newScene : IScene} (h : getScene scenes sceneId = some old)
    (hid : newScene.id = old.id) :
    getScene (updateScene scenes sceneId newScene) sceneId = some newScene :=
  getScene_updateScene h (hid.trans (getScene_id h))

/-! ## Order round-trip (`SET_SOURCE_ORDER`) -/

lemma lookupOrder_complete {items : List ISceneItem} :
    ∀ {order : List String}, (∀ id ∈ order, ∃ it ∈ items, it.sceneItemId = id) →
    ∃ its, lookupOrder items order = some its ∧ idsOf its = order := by
  intro order
  induction order with
  | nil => intro _; exact ⟨[], rfl, rfl⟩
  | cons id rest ih =>
    intro h
    obtain ⟨it, hmem, hid⟩ := h id (List.mem_cons_self id rest)
    have hfind : (items.find? (fun s => s.sceneItemId == id)).isSome :=
      List.find?_isSome.mpr ⟨it, hmem, by simp [hid]⟩
    obtain ⟨found, hfound⟩ := Option.isSome_iff_exists.mp hfind
    have hfoundid : found.sceneItemId = id := by
      have hp := List.find?_some hfound
      exact eq_of_beq hp
    obtain ⟨its, hits, hids⟩ := ih (fun i hi => h i (List.mem_cons_of_mem _ hi))
    refine ⟨found :: its, by simp [lookupOrder, hfound, hits], ?_⟩
    simp only [idsOf, List.map_cons, hfoundid]
    simpa [idsOf] using hids

/-! ## Unfolding a successful `addSource` -/

lemma addSource_ok {sources : List SourceRec} {scenes : List IScene} {fuel : Nat}
    {selfId sourceId : String} {optItemId : Option String} {freshId : String}
    {obsId : Nat} {itemId : String} {scenes' : List IScene}
    (h : addSource sources scenes fuel selfId sourceId optItemId freshId obsId
      = some (Except.ok (some itemId), scenes')) :
    ∃ src scene, getSource sources sourceId = some src ∧
      canAddSource sources scenes fuel selfId sourceId = some true ∧
      getScene scenes selfId = some scene ∧
      itemId = optItemId.getD freshId ∧
      scenes' = updateScene scenes selfId
        (MAKE_SOURCES_ACTIVE
          (ADD_SOURCE_TO_SCENE scene itemId src.sourceId obsId) [itemId]) := by
  unfold addSource at h
  cases hsrc : getSource sources sourceId with
  | none => rw [hsrc] at h; simp at h
  | some src =>
    rw [hsrc] at h
    cases hcan : canAddSource sources scenes fuel selfId sourceId with
    | none => rw [hcan] at h; simp at h
    | some b =>
      rw [hcan] at h
      cases b with
      | false => simp at h
      | true =>
        cases hscene : getScene scenes selfId with
        | none => rw [hscene] at h; simp at h
        | some scene =>
          rw [hscene] at h
          simp only [Option.some.injEq, Prod.mk.injEq] at h
          obtain ⟨hok, hsc⟩ := h
          have hid : itemId = optItemId.getD freshId := by
            have := congrArg (fun e => match e with
              | Except.ok (some i) => i
              | _ => itemId) hok
            simpa using this.symm
          refine ⟨src, scene, rfl, rfl, rfl, hid, ?_⟩
          rw [← hsc, hid]

lemma addSource_ok_items {sources : List SourceRec} {scenes : List IScene}
    {fuel : Nat} {selfId sourceId : String} {optItemId : Option String}
    {freshId : String} {obsId : Nat} {itemId : String} {scenes' : List IScene}
    {scene : IScene}
    (h : addSource sources scenes fuel selfId sourceId optItemId freshId obsId
      = some (Except.ok (some itemId), scenes'))
    (hscene : getScene scenes selfId = some scene) :
    ∃ scene', getScene scenes' selfId = some scene'
      ∧ scene'.items = exItem itemId sourceId obsId :: scene.items
      ∧ scene'.activeItemIds = [itemId] := by
  obtain ⟨src, scene0, hsrc, _, hscene0, _, hsc⟩ := addSource_ok h
  have heq : scene0 = scene := by
    rw [hscene0] at hscene; exact Option.some.inj hscene
  rw [heq] at hsc
  have hsid : src.sourceId = sourceId := getSource_id hsrc
  refine ⟨MAKE_SOURCES_ACTIVE (ADD_SOURCE_TO_SCENE scene itemId src.sourceId obsId)
    [itemId], ?_, ?_, rfl⟩
  · rw [hsc]
    exact getScene_updateScene_of_id hscene rfl
  · simp [MAKE_SOURCES_ACTIVE, ADD_SOURCE_TO_SCENE, exItem, hsid]

/-! ## Claim C2 -/

/-- C2: `addSource` has two failure tiers and is atomic on failure: a
`sourceId` that does not resolve in the SourceRegistry makes it throw a
"not found" error, and a resolvable `sourceId` rejected by `canAddSource`
makes it return `null`; in both cases no item is created and the scene
store — hence this scene's `items` and `activeItemIds` — is returned
unchanged. -/
theorem C2_addSource_failure_tiers (sources : List SourceRec)
    (scenes : List IScene) (fuel : Nat) (selfId sourceId : String)
    (optItemId : Option String) (freshId : String) (obsId : Nat) :
    (getSource sources sourceId = none →
      addSource sources scenes fuel selfId sourceId optItemId freshId obsId
        = some (Except.error ("Source " ++ sourceId ++ " not found"), scenes))
    ∧ (∀ src, getSource sources sourceId = some src →
      canAddSource sources scenes fuel selfId sourceId = some false →
      addSource sources scenes fuel selfId sourceId optItemId freshId obsId
        = some (Except.ok none, scenes)) := by
  constructor
  · intro h
    simp [addSource, h]
  · intro src hsrc hcan
    simp [addSource, hsrc, hcan]

/-- Witness for C2: on the concrete store, adding the unknown source
`nope` throws with the store unchanged, and adding `S1` to its own scene is
rejected with `null` and the store unchanged. -/
theorem C2_addSource_failure_tiers_witness :
    addSource exSources exScenes 0 "S1" "nope" none "n1" 7
      = some (Except.error ("Source " ++ "nope" ++ " not found"), exScenes)
    ∧ addSource exSources exScenes 0 "S1" "S1" none "n1" 7
      = some (Except.ok none, exScenes) :=
  ⟨(C2_addSource_failure_tiers exSources exScenes 0 "S1" "nope" none "n1" 7).1 rfl,
   (C2_addSource_failure_tiers exSources exScenes 0 "S1" "S1" none "n1" 7).2
     { sourceId := "S1", type := "scene" } rfl rfl⟩

/-! ## Claim C10 -/

/-- C10: for every `sourceId` that does not resolve in the SourceRegistry,
`canAddSource` returns `false` rather than throwing; `addSource`'s thrown
"not found" error therefore comes from its own resolution check, which runs
before the policy check (it throws on such ids instead of returning the
policy `null`). -/
theorem C10_canAddSource_unresolvable (sources : List SourceRec)
    (scenes : List IScene) (fuel : Nat) (selfId sourceId : String)
    (optItemId : Option String) (freshId : String) (obsId : Nat)
    (h : getSource sources sourceId = none) :
    canAddSource sources scenes fuel selfId sourceId = some false
    ∧ addSource sources scenes fuel selfId sourceId optItemId freshId obsId
        = some (Except.error ("Source " ++ sourceId ++ " not found"), scenes) := by
  constructor
  · simp [canAddSource, h]
  · simp [addSource, h]

/-- Witness for C10 at the unknown source id `nope`. -/
theorem C10_canAddSource_unresolvable_witness :
    canAddSource exSources exScenes 3 "S1" "nope" = some false
    ∧ addSource exSources exScenes 3 "S1" "nope" none "n1" 7
        = some (Except.error ("Source " ++ "nope" ++ " not found"), exScenes) :=
  C10_canAddSource_unresolvable exSources exScenes 3 "S1" "nope" none "n1" 7 rfl

/-! ## Claim C5 -/

/-- C5: `removeItem` throws a "not found" error and returns the store
unchanged when no item with that id exists in this scene; otherwise it
deletes exactly the records with that id from `items` (under the uniqueness
invariant, exactly that record), removes the id from `activeItemIds` if
present, and leaves all other items in their previous relative order (the
result is the `filter` of the previous lists). -/
theorem C5_removeItem_not_found_or_delete (scenes : List IScene)
    (selfId sceneItemId : String) (scene : IScene)
    (hscene : getScene scenes selfId = some scene) :
    (getItem scene sceneItemId = none →
      removeItem scenes selfId sceneItemId
        = some (Except.error ("SceneItem " ++ sceneItemId ++ " not found"), scenes))
    ∧ (∀ it, getItem scene sceneItemId = some it →
      ∃ scenes', removeItem scenes selfId sceneItemId = some (Except.ok (), scenes')
        ∧ ∃ scene', getScene scenes' selfId = some scene'
          ∧ scene'.items = scene.items.filter (fun s => s.sceneItemId != sceneItemId)
          ∧ scene'.activeItemIds
              = scene.activeItemIds.filter (fun id => id != sceneItemId)) := by
  constructor
  · intro h
    simp [removeItem, hscene, h]
  · intro it hit
    refine ⟨updateScene scenes selfId (REMOVE_SOURCE_FROM_SCENE scene sceneItemId),
      by simp [removeItem, hscene, hit], ?_⟩
    refine ⟨REMOVE_SOURCE_FROM_SCENE scene sceneItemId,
      getScene_updateScene_of_id hscene rfl, rfl, ?_⟩
    show (if scene.activeItemIds.contains sceneItemId = true then
        without scene.activeItemIds sceneItemId
      else scene.activeItemIds) = _
    by_cases hc : sceneItemId ∈ scene.activeItemIds
    · have hcb : scene.activeItemIds.contains sceneItemId = true :=
        List.elem_iff.mpr hc
      rw [if_pos hcb]
      rfl
    · have hcb : ¬ scene.activeItemIds.contains sceneItemId = true := by
        intro hb
        exact hc (List.elem_iff.mp hb)
      rw [if_neg hcb, eq_comm]
      apply List.filter_eq_self.mpr
      intro a ha
      have hne : a ≠ sceneItemId := by
        intro heq
        rw [heq] at ha
        exact hc ha
      simpa using hne

/-- Witness for C5: on the concrete one-scene store, removing the unknown
id `zz` throws with the store unchanged, and removing `a` deletes exactly
that record and deactivates it. -/
theorem C5_removeItem_witness :
    (removeItem exScenesOrd "S3" "zz"
      = some (Except.error ("SceneItem " ++ "zz" ++ " not found"), exScenesOrd))
    ∧ ∃ scenes', removeItem exScenesOrd "S3" "a" = some (Except.ok (), scenes')
      ∧ ∃ scene', getScene scenes' "S3" = some scene'
        ∧ scene'.items
            = exSceneOrd.items.filter (fun s => s.sceneItemId != "a")
        ∧ scene'.activeItemIds
            = exSceneOrd.activeItemIds.filter (fun id => id != "a") :=
  ⟨(C5_removeItem_not_found_or_delete exScenesOrd "S3" "zz"
      exSceneOrd rfl).1 rfl,
   (C5_removeItem_not_found_or_delete exScenesOrd "S3" "a"
      exSceneOrd rfl).2 (exItem "a" "cam" 1) rfl⟩

/-! ## Claim C6 -/

/-- C6: order round-trip — for every scene and every permutation `order` of
the `sceneItemId`s currently in `items`, `setSourceOrder` succeeds and the
sequence of `sceneItemId`s of the updated `items` equals exactly `order`
(for any `sceneItemId` and `positionDelta` arguments, which only drive the
backend move). -/
theorem C6_setSourceOrder_roundtrip (scenes : List IScene)
    (selfId sceneItemId : String) (positionDelta : Int) (order : List String)
    (scene : IScene) (hscene : getScene scenes selfId = some scene)
    (hperm : order.Perm (idsOf scene.items)) :
    ∃ scenes', setSourceOrder scenes selfId sceneItemId positionDelta order
        = some scenes'
      ∧ ∃ scene', getScene scenes' selfId = some scene'
        ∧ idsOf scene'.items = order := by
  have hmem : ∀ id ∈ order, ∃ it ∈ scene.items, it.sceneItemId = id := by
    intro id hid
    have hin : id ∈ idsOf scene.items := hperm.mem_iff.mp hid
    simp only [idsOf, List.mem_map] at hin
    obtain ⟨it, hit, heq⟩ := hin
    exact ⟨it, hit, heq⟩
  obtain ⟨its, hits, hids⟩ := lookupOrder_complete hmem
  refine ⟨updateScene scenes selfId { scene with items := its },
    by simp [setSourceOrder, hscene, SET_SOURCE_ORDER, hits], ?_⟩
  exact ⟨{ scene with items := its },
    getScene_updateScene_of_id hscene rfl, hids⟩

/-- Witness for C6: reversing the two items of the concrete store. -/
theorem C6_setSourceOrder_roundtrip_witness :
    ∃ scenes', setSourceOrder exScenesOrd "S3" "a" (-1) ["b", "a"] = some scenes'
      ∧ ∃ scene', getScene scenes' "S3" = some scene'
        ∧ idsOf scene'.items = ["b", "a"] :=
  C6_setSourceOrder_roundtrip exScenesOrd "S3" "a" (-1) ["b", "a"]
    exSceneOrd rfl (by decide)

/-! ## Claim C3 -/

/-- C3: a successful `addSource` inserts the new item record at the front
of `items` with default state — `visible = true`, `locked = false`,
`scaleX = scaleY = 1`, position `(0,0)`, rotation `0`, crop all `0` — and
consequently two successive successful `addSource` calls yield the two new
ids at the front in reverse call order (`[b, a]`). -/
theorem C3_addSource_front_insertion :
    (∀ (sources : List SourceRec) (scenes : List IScene) (fuel : Nat)
      (selfId sourceId : String) (optItemId : Option String) (freshId : String)
      (obsId : Nat) (itemId : String) (scenes' : List IScene) (scene : IScene),
      addSource sources scenes fuel selfId sourceId optItemId freshId obsId
        = some (Except.ok (some itemId), scenes') →
      getScene scenes selfId = some scene →
      ∃ scene', getScene scenes' selfId = some scene'
        ∧ scene'.items
            = { sceneItemId := itemId, sourceId := sourceId, obsSceneItemId := obsId,
                x := 0, y := 0, scaleX := 1, scaleY := 1, visible := true,
                crop := { top := 0, bottom := 0, left := 0, right := 0 },
                rotation := 0, locked := false } :: scene.items)
    ∧ (∀ (sources : List SourceRec) (scenes : List IScene) (fuelA fuelB : Nat)
      (selfId srcA srcB : String) (optA optB : Option String)
      (freshA freshB : String) (obsA obsB : Nat) (idA idB : String)
      (scenes1 scenes2 : List IScene) (scene : IScene),
      getScene scenes selfId = some scene →
      addSource sources scenes fuelA selfId srcA optA freshA obsA
        = some (Except.ok (some idA), scenes1) →
      addSource sources scenes1 fuelB selfId srcB optB freshB obsB
        = some (Except.ok (some idB), scenes2) →
      ∃ scene'', getScene scenes2 selfId = some scene''
        ∧ idsOf scene''.items = idB :: idA :: idsOf scene.items) := by
  constructor
  · intro sources scenes fuel selfId sourceId optItemId freshId obsId itemId
      scenes' scene h hscene
    obtain ⟨scene', hget, hitems, _⟩ := addSource_ok_items h hscene
    exact ⟨scene', hget, by rw [hitems]; rfl⟩
  · intro sources scenes fuelA fuelB selfId srcA srcB optA optB freshA freshB
      obsA obsB idA idB scenes1 scenes2 scene hscene h1 h2
    obtain ⟨scene1, hget1, hitems1, _⟩ := addSource_ok_items h1 hscene
    obtain ⟨scene2, hget2, hitems2, _⟩ := addSource_ok_items h2 hget1
    refine ⟨scene2, hget2, ?_⟩
    rw [hitems2, hitems1]
    simp [idsOf, exItem]

/-- Witness for C3: adding `cam` twice (fresh ids `a1` then `b1`) to the
concrete store yields items `[b1, a1, i12]`, the new record carrying the
default state. -/
theorem C3_addSource_front_insertion_witness :
    (∃ scene', getScene
        [ { id := "S1", name := "one",
            items := [exItem "a1" "cam" 8, exItem "i12" "S2" 1],
            activeItemIds := ["a1"] }
        , { id := "S2", name := "two", items := [], activeItemIds := [] } ]
        "S1" = some scene'
      ∧ scene'.items
          = { sceneItemId := "a1", sourceId := "cam", obsSceneItemId := 8,
              x := 0, y := 0, scaleX := 1, scaleY := 1, visible := true,
              crop := { top := 0, bottom := 0, left := 0, right := 0 },
              rotation := 0, locked := false }
            :: [exItem "i12" "S2" 1])
    ∧ (∃ scene'', getScene
        [ { id := "S1", name := "one",
            items := [exItem "b1" "cam" 9, exItem "a1" "cam" 8, exItem "i12" "S2" 1],
            activeItemIds := ["b1"] }
        , { id := "S2", name := "two", items := [], activeItemIds := [] } ]
        "S1" = some scene''
      ∧ idsOf scene''.items = "b1" :: "a1" :: idsOf [exItem "i12" "S2" 1]) :=
  ⟨C3_addSource_front_insertion.1 exSources exScenes 0 "S1" "cam" none "a1" 8 "a1"
      _ exScene1 rfl rfl,
   C3_addSource_front_insertion.2 exSources exScenes 0 0 "S1" "cam" "cam" none none
      "a1" "b1" 8 9 "a1" "b1" _ _ exScene1 rfl rfl rfl⟩

/-! ## Claim C4 -/

/-- Counterexample to C4 as stated: on a store where item `a0` is active, a
successful `addSource` leaves `activeItemIds = ["n1"]` — the previously
active id `a0` is NOT still active, because `addSource` runs
`makeItemsActive([newId])`, whose `MAKE_SOURCES_ACTIVE` mutation replaces
the active set wholesale instead of adding to it. -/
theorem C4_counterexample :
    addSource exSources exScenesA 0 "S1" "cam" none "n1" 5
      = some (Except.ok (some "n1"), [exSceneAAfter])
    ∧ "a0" ∈ exSceneA.activeItemIds
    ∧ "a0" ∉ exSceneAAfter.activeItemIds :=
  ⟨rfl, by decide, by decide⟩

/-- C4 amended: a successful `addSource` makes `activeItemIds` exactly the
one-element list holding the new item's id — the new item is active by
default, but ids active before the call are dropped (replace semantics, not
add semantics). -/
theorem C4_amended_active_replaced (sources : List SourceRec)
    (scenes : List IScene) (fuel : Nat) (selfId sourceId : String)
    (optItemId : Option String) (freshId : String) (obsId : Nat)
    (itemId : String) (scenes' : List IScene) (scene : IScene)
    (h : addSource sources scenes fuel selfId sourceId optItemId freshId obsId
      = some (Except.ok (some itemId), scenes'))
    (hscene : getScene scenes selfId = some scene) :
    ∃ scene', getScene scenes' selfId = some scene'
      ∧ scene'.activeItemIds = [itemId] := by
  obtain ⟨scene', hget, _, hact⟩ := addSource_ok_items h hscene
  exact ⟨scene', hget, hact⟩

/-- Witness for the amended C4 at the concrete store. -/
theorem C4_amended_active_replaced_witness :
    ∃ scene', getScene [exSceneAAfter] "S1" = some scene'
      ∧ scene'.activeItemIds = ["n1"] :=
  C4_amended_active_replaced exSources exScenesA 0 "S1" "cam" none "n1" 5
    "n1" [exSceneAAfter] exSceneA rfl rfl

/-! ## Nested-scene search: graph edges, termination, correctness -/

lemma childEdgeB_iff {sources : List SourceRec} {scenes : List IScene}
    {a c : String} {scene : IScene} (h : getScene scenes a = some scene) :
    childEdgeB sources scenes a c = true ↔ c ∈ childSceneIds sources scene := by
  rw [childEdgeB, h]
  exact List.elem_iff

lemma mem_childSceneIds {sources : List SourceRec} {scene : IScene} {c : String} :
    c ∈ childSceneIds sources scene ↔
      ∃ it ∈ scene.items, itemType sources it = some "scene" ∧ it.sourceId = c := by
  simp only [childSceneIds, List.mem_map, List.mem_filter]
  constructor
  · rintro ⟨it, ⟨hmem, htype⟩, hsrc⟩
    exact ⟨it, hmem, by simpa using htype, hsrc⟩
  · rintro ⟨it, hmem, htype, hsrc⟩
    exact ⟨it, ⟨hmem, by simpa using htype⟩, hsrc⟩

lemma childEdgeB_elim {sources : List SourceRec} {scenes : List IScene}
    {a c : String} (h : childEdgeB sources scenes a c = true) :
    ∃ scene ∈ scenes, scene.id = a ∧ ∃ it ∈ scene.items,
      itemType sources it = some "scene" ∧ it.sourceId = c := by
  unfold childEdgeB at h
  cases hs : getScene scenes a with
  | none => rw [hs] at h; simp at h
  | some scene =>
    rw [hs] at h
    have hc : c ∈ childSceneIds sources scene := List.elem_iff.mp h
    exact ⟨scene, getScene_mem hs, getScene_id hs, mem_childSceneIds.mp hc⟩

lemma rank_lt_of_edge {sources : List SourceRec} {scenes : List IScene}
    {rank : String → Nat} (hrank : rankDecreasing sources scenes rank)
    {a c : String} (h : childEdgeB sources scenes a c = true) :
    rank c < rank a := by
  obtain ⟨scene, hmem, hid, it, hit, htype, hsrc⟩ := childEdgeB_elim h
  have := hrank scene hmem it hit htype
  rw [hsrc, hid] at this
  exact this

lemma closed_of_edge {sources : List SourceRec} {scenes : List IScene}
    (hclosed : scenesClosed sources scenes) {a c : String}
    (h : childEdgeB sources scenes a c = true) :
    (getScene scenes c).isSome := by
  obtain ⟨scene, hmem, _, it, hit, htype, hsrc⟩ := childEdgeB_elim h
  have := hclosed scene hmem it hit htype
  rwa [hsrc] at this

lemma reaches_unfold {sources : List SourceRec} {scenes : List IScene}
    {a target : String} :
    Reaches sources scenes a target ↔
      ∃ c, childEdgeB sources scenes a c = true
        ∧ (c = target ∨ Reaches sources scenes c target) := by
  constructor
  · intro h
    cases h with
    | direct h => exact ⟨_, h, Or.inl rfl⟩
    | step h hr => exact ⟨_, h, Or.inr hr⟩
  · rintro ⟨c, hc, hct | hr⟩
    · exact hct ▸ Reaches.direct hc
    · exact Reaches.step hc hr

lemma hasNestedLoop_spec (scenes : List IScene) (P : String → Option Bool)
    (target : String) (R : String → Prop) :
    ∀ cs : List String,
    (∀ c ∈ cs, (getScene scenes c).isSome
      ∧ ∃ b, P c = some b ∧ (b = true ↔ R c)) →
    ∃ b, hasNestedLoop scenes P target cs = some b
      ∧ (b = true ↔ ∃ c ∈ cs, c = target ∨ R c) := by
  intro cs
  induction cs with
  | nil => intro _; exact ⟨false, rfl, by simp⟩
  | cons c rest ih =>
    intro h
    obtain ⟨hsome, b, hb, hbR⟩ := h c (List.mem_cons_self c rest)
    obtain ⟨sc, hsc⟩ := Option.isSome_iff_exists.mp hsome
    by_cases hct : c = target
    · subst hct
      refine ⟨true, by simp [hasNestedLoop, hsc], ?_⟩
      simp only [true_iff]
      exact ⟨c, List.mem_cons_self c rest, Or.inl rfl⟩
    · cases b with
      | true =>
        refine ⟨true, by simp [hasNestedLoop, hsc, hct, hb], ?_⟩
        simp only [true_iff]
        exact ⟨c, List.mem_cons_self c rest, Or.inr (hbR.mp rfl)⟩
      | false =>
        obtain ⟨b', hb', hbR'⟩ := ih (fun x hx => h x (List.mem_cons_of_mem _ hx))
        refine ⟨b', by simp [hasNestedLoop, hsc, hct, hb, hb'], ?_⟩
        rw [hbR']
        constructor
        · rintro ⟨x, hx, hxx⟩
          exact ⟨x, List.mem_cons_of_mem _ hx, hxx⟩
        · rintro ⟨x, hx, hxx⟩
          rcases List.mem_cons.mp hx with rfl | hx'
          · rcases hxx with h' | h'
            · exact absurd h' hct
            · exact absurd (hbR.mpr h') (by simp)
          · exact ⟨x, hx', hxx⟩

lemma hasNestedScene_spec {sources : List SourceRec} {scenes : List IScene}
    {rank : String → Nat} (hrank : rankDecreasing sources scenes rank)
    (hclosed : scenesClosed sources scenes) :
    ∀ (fuel : Nat) (selfId target : String), rank selfId < fuel →
      (getScene scenes selfId).isSome →
      ∃ b, hasNestedScene sources scenes fuel selfId target = some b
        ∧ (b = true ↔ Reaches sources scenes selfId target) := by
  intro fuel
  induction fuel with
  | zero =>
    intro selfId target hf
    exact absurd hf (Nat.not_lt_zero _)
  | succ n ih =>
    intro selfId target hf hs
    obtain ⟨scene, hscene⟩ := Option.isSome_iff_exists.mp hs
    have hcs : ∀ c ∈ childSceneIds sources scene,
        (getScene scenes c).isSome
          ∧ ∃ b, hasNestedScene sources scenes n c target = some b
            ∧ (b = true ↔ Reaches sources scenes c target) := by
      intro c hc
      have hedge : childEdgeB sources scenes selfId c = true :=
        (childEdgeB_iff hscene).mpr hc
      have hcsome := closed_of_edge hclosed hedge
      have hrk : rank c < n :=
        lt_of_lt_of_le (rank_lt_of_edge hrank hedge) (Nat.lt_succ_iff.mp hf)
      exact ⟨hcsome, ih c target hrk hcsome⟩
    obtain ⟨b, hloop, hiff⟩ := hasNestedLoop_spec scenes
      (fun c => hasNestedScene sources scenes n c target) target
      (fun c => Reaches sources scenes c target) (childSceneIds sources scene) hcs
    refine ⟨b, ?_, ?_⟩
    · show hasNestedScene sources scenes (Nat.succ n) selfId target = some b
      rw [hasNestedScene, hscene]
      exact hloop
    · rw [hiff, reaches_unfold]
      constructor
      · rintro ⟨c, hc, hcc⟩
        exact ⟨c, (childEdgeB_iff hscene).mpr hc, hcc⟩
      · rintro ⟨c, hc, hcc⟩
        exact ⟨c, (childEdgeB_iff hscene).mp hc, hcc⟩

/-! ## Claim C8 -/

lemma cyc_diverges : ∀ fuel,
    hasNestedScene cycSources cycScenes fuel "A" "X" = none
    ∧ hasNestedScene cycSources cycScenes fuel "B" "X" = none := by
  intro fuel
  induction fuel with
  | zero => exact ⟨rfl, rfl⟩
  | succ n ih =>
    obtain ⟨ihA, ihB⟩ := ih
    constructor
    · have e : hasNestedScene cycSources cycScenes (Nat.succ n) "A" "X"
          = match hasNestedScene cycSources cycScenes n "B" "X" with
            | none => none
            | some true => some true
            | some false => some false := rfl
      rw [e, ihB]
    · have e : hasNestedScene cycSources cycScenes (Nat.succ n) "B" "X"
          = match hasNestedScene cycSources cycScenes n "A" "X" with
            | none => none
            | some true => some true
            | some false => some false := rfl
      rw [e, ihA]

/-- Counterexample to C8 as stated: on the malformed cyclic store where
scene `A` contains scene `B` and `B` contains `A`, the query
`hasNestedScene("X")` on scene `A` (for an id occurring nowhere) returns
`none` at EVERY recursion-depth bound — the source's raw recursion, which
has no visited set, never terminates on this input. -/
theorem C8_counterexample : divergesOn cycQuery :=
  fun fuel => (cyc_diverges fuel).1

/-- C8 amended: `hasNestedScene(sceneId)` terminates on every store whose
derived scene-reference graph is acyclic (admits a decreasing rank) and
whose referenced child scenes all exist, given recursion depth above the
rank of this scene; there it returns `true` exactly when `sceneId` equals a
child scene referenced by one of this scene's items or is nested within
such a child (the transitive containment relation `Reaches`).  On malformed
cyclic data the raw recursion does not terminate (see the counterexample). -/
theorem C8_hasNestedScene_terminates_acyclic (sources : List SourceRec)
    (scenes : List IScene) (rank : String → Nat) (fuel : Nat)
    (selfId target : String) (hrank : rankDecreasing sources scenes rank)
    (hclosed : scenesClosed sources scenes) (hfuel : rank selfId < fuel)
    (hself : (getScene scenes selfId).isSome) :
    ∃ b, hasNestedScene sources scenes fuel selfId target = some b
      ∧ (b = true ↔ Reaches sources scenes selfId target) :=
  hasNestedScene_spec hrank hclosed fuel selfId target hfuel hself

/-- Witness for the amended C8 on the concrete acyclic store. -/
theorem C8_hasNestedScene_terminates_acyclic_witness :
    ∃ b, hasNestedScene exSources exScenes 2 "S1" "S2" = some b
      ∧ (b = true ↔ Reaches exSources exScenes "S1" "S2") :=
  C8_hasNestedScene_terminates_acyclic exSources exScenes exRank 2 "S1" "S2"
    (by decide) (by decide) (by decide) (by decide)

/-! ## Claim C1 -/

/-- C1: `canAddSource` enforces acyclicity.  For every resolvable source of
a type other than "scene" it returns `true`.  For a source of type "scene"
(on a well-formed acyclic store, with recursion depth above the candidate's
rank) it returns normally, with `false` exactly when the candidate scene is
this scene itself or the candidate scene transitively contains this scene. -/
theorem C1_canAddSource_acyclicity (sources : List SourceRec)
    (scenes : List IScene) (rank : String → Nat) (fuel : Nat)
    (selfId sourceId : String) (src : SourceRec)
    (hsrc : getSource sources sourceId = some src)
    (hrank : rankDecreasing sources scenes rank)
    (hclosed : scenesClosed sources scenes)
    (hfuel : rank sourceId < fuel)
    (hcand : src.type = "scene" → (getScene scenes sourceId).isSome) :
    (src.type ≠ "scene" →
      canAddSource sources scenes fuel selfId sourceId = some true)
    ∧ (src.type = "scene" →
      ∃ b, canAddSource sources scenes fuel selfId sourceId = some b
        ∧ (b = false ↔
            (selfId = sourceId ∨ Reaches sources scenes sourceId selfId))) := by
  have hsid : src.sourceId = sourceId := getSource_id hsrc
  constructor
  · intro hne
    simp [canAddSource, hsrc, hne]
  · intro hsc
    by_cases hself : selfId = sourceId
    · refine ⟨false, ?_, by simp [hself]⟩
      simp [canAddSource, hsrc, hsc, hsid, hself]
    · obtain ⟨b, hb, hbR⟩ := hasNestedScene_spec hrank hclosed fuel sourceId selfId
        hfuel (hcand hsc)
      refine ⟨!b, ?_, ?_⟩
      · simp [canAddSource, hsrc, hsc, hsid, hself, hb]
      · rw [Bool.not_eq_false']
        rw [hbR]
        constructor
        · intro h
          exact Or.inr h
        · rintro (h | h)
          · exact absurd h hself
          · exact h

/-- Witness for C1 on the concrete store: the camera source is addable to
`S1`, and adding scene `S1` into scene `S2` is vetoed exactly because `S1`
transitively contains `S2`. -/
theorem C1_canAddSource_acyclicity_witness :
    (canAddSource exSources exScenes 2 "S1" "cam" = some true)
    ∧ ∃ b, canAddSource exSources exScenes 2 "S2" "S1" = some b
      ∧ (b = false ↔
          ("S2" = "S1" ∨ Reaches exSources exScenes "S1" "S2")) :=
  ⟨(C1_canAddSource_acyclicity exSources exScenes exRank 2 "S1" "cam"
      { sourceId := "cam", type := "video" } rfl (by decide) (by decide)
      (by decide) (by simp)).1 (by simp),
   (C1_canAddSource_acyclicity exSources exScenes exRank 2 "S2" "S1"
      { sourceId := "S1", type := "scene" } rfl (by decide) (by decide)
      (by decide) (fun _ => by decide)).2 rfl⟩

/-! ## Deduplication lemmas (for `getNestedItems`) -/

lemma idsOf_cons (it : ISceneItem) (l : List ISceneItem) :
    idsOf (it :: l) = it.sceneItemId :: idsOf l := rfl

lemma idsOf_append (a b : List ISceneItem) :
    idsOf (a ++ b) = idsOf a ++ idsOf b :=
  List.map_append _ a b

lemma contains_eq_true_of_mem {l : List String} {x : String} (h : x ∈ l) :
    l.contains x = true :=
  List.elem_iff.mpr h

lemma contains_eq_false_of_not_mem {l : List String} {x : String} (h : x ∉ l) :
    l.contains x = false := by
  rw [← Bool.not_eq_true]
  intro hb
  exact h (List.elem_iff.mp hb)

lemma dedupBy_congr : ∀ (l : List ISceneItem) {seen1 seen2 : List String},
    (∀ x, x ∈ seen1 ↔ x ∈ seen2) → dedupBy seen1 l = dedupBy seen2 l := by
  intro l
  induction l with
  | nil => intro seen1 seen2 _; rfl
  | cons it rest ih =>
    intro seen1 seen2 h
    by_cases hm : it.sceneItemId ∈ seen1
    · have c1 := contains_eq_true_of_mem hm
      have c2 := contains_eq_true_of_mem ((h _).mp hm)
      rw [dedupBy, dedupBy, c1, c2]
      simp only [if_true]
      exact ih h
    · have c1 := contains_eq_false_of_not_mem hm
      have c2 := contains_eq_false_of_not_mem (fun hx => hm ((h _).mpr hx))
      rw [dedupBy, dedupBy, c1, c2]
      simp only [Bool.false_eq_true, if_false]
      refine congrArg (it :: ·) (ih ?_)
      intro x
      rw [List.mem_cons, List.mem_cons]
      exact or_congr Iff.rfl (h x)

lemma mem_idsOf_dedupBy : ∀ (l : List ISceneItem) (seen : List String) (x : String),
    x ∈ idsOf (dedupBy seen l) ↔ x ∈ idsOf l ∧ x ∉ seen := by
  intro l
  induction l with
  | nil => intro seen x; simp [dedupBy, idsOf]
  | cons it rest ih =>
    intro seen x
    by_cases hm : it.sceneItemId ∈ seen
    · have c1 := contains_eq_true_of_mem hm
      rw [dedupBy, c1]
      simp only [if_true]
      simp only [ih, idsOf_cons, List.mem_cons]
      constructor
      · rintro ⟨hx, hs⟩
        exact ⟨Or.inr hx, hs⟩
      · rintro ⟨hx | hx, hs⟩
        · exact absurd (by rw [hx]; exact hm) hs
        · exact ⟨hx, hs⟩
    · have c1 := contains_eq_false_of_not_mem hm
      rw [dedupBy, c1]
      simp only [Bool.false_eq_true, if_false]
      simp only [ih, idsOf_cons, List.mem_cons]
      constructor
      · rintro (hx | ⟨hx, hs⟩)
        · exact ⟨Or.inl hx, by rw [hx]; exact hm⟩
        · exact ⟨Or.inr hx, fun hmem => hs (Or.inr hmem)⟩
      · rintro ⟨hx | hx, hs⟩
        · exact Or.inl hx
        · by_cases hxi : x = it.sceneItemId
          · exact Or.inl hxi
          · exact Or.inr ⟨hx, fun hmem => hmem.elim hxi hs⟩

lemma dedupBy_append : ∀ (A B : List ISceneItem) (seen : List String),
    dedupBy seen (A ++ B) = dedupBy seen A ++ dedupBy (idsOf A ++ seen) B := by
  intro A
  induction A with
  | nil => intro B seen; simp [dedupBy, idsOf]
  | cons a A' ih =>
    intro B seen
    by_cases hm : a.sceneItemId ∈ seen
    · have c1 := contains_eq_true_of_mem hm
      rw [List.cons_append, dedupBy, c1, dedupBy, c1]
      simp only [if_true]
      rw [ih]
      congr 1
      apply dedupBy_congr
      intro x
      have hxs : x = a.sceneItemId → x ∈ seen := fun hx => by rw [hx]; exact hm
      simp only [idsOf_cons, List.mem_append, List.mem_cons]
      tauto
    · have c1 := contains_eq_false_of_not_mem hm
      rw [List.cons_append, dedupBy, c1, dedupBy, c1]
      simp only [Bool.false_eq_true, if_false, List.cons_append]
      rw [ih]
      congr 2
      apply dedupBy_congr
      intro x
      simp only [idsOf_cons, List.mem_append, List.mem_cons]
      tauto

lemma dedupBy_dedupBy : ∀ (l : List ISceneItem) (inner seen : List String),
    (∀ x ∈ inner, x ∈ seen) →
    dedupBy seen (dedupBy inner l) = dedupBy seen l := by
  intro l
  induction l with
  | nil => intro inner seen _; rfl
  | cons it rest ih =>
    intro inner seen hsub
    by_cases hmi : it.sceneItemId ∈ inner
    · have ci := contains_eq_true_of_mem hmi
      have cs := contains_eq_true_of_mem (hsub _ hmi)
      rw [dedupBy, ci]
      simp only [if_true]
      rw [ih _ _ hsub, dedupBy, cs]
      simp only [if_true]
    · have ci := contains_eq_false_of_not_mem hmi
      rw [dedupBy, ci]
      simp only [Bool.false_eq_true, if_false]
      by_cases hms : it.sceneItemId ∈ seen
      · have cs := contains_eq_true_of_mem hms
        rw [dedupBy, cs, dedupBy, cs]
        simp only [if_true]
        apply ih
        intro x hx
        rcases List.mem_cons.mp hx with rfl | hx'
        · exact hms
        · exact hsub _ hx'
      · have cs := contains_eq_false_of_not_mem hms
        rw [dedupBy, cs, dedupBy, cs]
        simp only [Bool.false_eq_true, if_false]
        refine congrArg (it :: ·) (ih _ _ ?_)
        intro x hx
        rcases List.mem_cons.mp hx with rfl | hx'
        · exact List.mem_cons_self _ _
        · exact List.mem_cons_of_mem _ (hsub _ hx')

lemma nodup_idsOf_dedupBy : ∀ (l : List ISceneItem) (seen : List String),
    (idsOf (dedupBy seen l)).Nodup := by
  intro l
  induction l with
  | nil => intro seen; simp [dedupBy, idsOf]
  | cons it rest ih =>
    intro seen
    by_cases hm : it.sceneItemId ∈ seen
    · have c1 := contains_eq_true_of_mem hm
      rw [dedupBy, c1]
      simp only [if_true]
      exact ih seen
    · have c1 := contains_eq_false_of_not_mem hm
      rw [dedupBy, c1]
      simp only [Bool.false_eq_true, if_false]
      rw [idsOf_cons, List.nodup_cons]
      refine ⟨?_, ih _⟩
      intro hmem
      have := (mem_idsOf_dedupBy rest (it.sceneItemId :: seen) it.sceneItemId).mp hmem
      exact this.2 (List.mem_cons_self _ _)

/-- Two item lists that dedup identically under every seen set and have the
same id membership (the invariant threaded through `getNestedItems`'s
recursion when dropping the inner dedups). -/
def DedupEquiv (l l' : List ISceneItem) : Prop :=
  (∀ seen, dedupBy seen l = dedupBy seen l') ∧ (∀ x, x ∈ idsOf l ↔ x ∈ idsOf l')

lemma dedupEquiv_of_dedup (l : List ISceneItem) : DedupEquiv (dedupBy [] l) l := by
  constructor
  · intro seen
    exact dedupBy_dedupBy l [] seen (by simp)
  · intro x
    rw [mem_idsOf_dedupBy]
    simp

lemma dedupEquiv_append {a a' b b' : List ISceneItem}
    (ha : DedupEquiv a a') (hb : DedupEquiv b b') :
    DedupEquiv (a ++ b) (a' ++ b') := by
  obtain ⟨ha1, ha2⟩ := ha
  obtain ⟨hb1, hb2⟩ := hb
  constructor
  · intro seen
    rw [dedupBy_append, dedupBy_append, ha1, hb1]
    congr 1
    apply dedupBy_congr
    intro x
    rw [List.mem_append, List.mem_append]
    exact or_congr (ha2 x) Iff.rfl
  · intro x
    rw [idsOf_append, idsOf_append, List.mem_append, List.mem_append]
    exact or_congr (ha2 x) (hb2 x)

lemma nestedLoop_rel (PG PT : String → Option (List ISceneItem)) :
    ∀ cs : List String,
    (∀ c ∈ cs, ∀ l, PG c = some l → ∃ r, PT c = some r ∧ l = dedupBy [] r) →
    ∀ ls, nestedLoop PG cs = some ls →
    ∃ lraw, nestedLoop PT cs = some lraw ∧ DedupEquiv ls lraw := by
  intro cs
  induction cs with
  | nil =>
    intro _ ls h
    refine ⟨[], rfl, ?_⟩
    have : ls = [] := by
      simpa [nestedLoop] using h.symm
    rw [this]
    exact ⟨fun _ => rfl, fun _ => Iff.rfl⟩
  | cons c rest ih =>
    intro hrel ls h
    rw [nestedLoop] at h
    cases hg : PG c with
    | none => rw [hg] at h; simp at h
    | some l =>
      rw [hg] at h
      cases hrest : nestedLoop PG rest with
      | none => rw [hrest] at h; simp at h
      | some ls' =>
        rw [hrest] at h
        have h' : l ++ ls' = ls := by simpa using h
        obtain ⟨r, hr, hlr⟩ := hrel c (List.mem_cons_self c rest) l hg
        obtain ⟨lraw', hlraw', hequiv⟩ :=
          ih (fun x hx => hrel x (List.mem_cons_of_mem _ hx)) ls' hrest
        refine ⟨r ++ lraw', by rw [nestedLoop, hr, hlraw']; rfl, ?_⟩
        rw [← h']
        exact dedupEquiv_append (hlr ▸ dedupEquiv_of_dedup r) hequiv

lemma getNestedItems_traversal {sources : List SourceRec} {scenes : List IScene} :
    ∀ (fuel : Nat) (selfId : String) (res : List ISceneItem),
    getNestedItems sources scenes fuel selfId = some res →
    ∃ raw, nestedTraversal sources scenes fuel selfId = some raw
      ∧ res = dedupBy [] raw := by
  intro fuel
  induction fuel with
  | zero => intro selfId res h; simp [getNestedItems] at h
  | succ n ih =>
    intro selfId res h
    rw [getNestedItems] at h
    split at h
    · simp at h
    · split at h
      · simp at h
      · rename_i oscr scene hscene iscr nested hloop
        have h' : dedupBy [] (scene.items ++ nested) = res := by simpa using h
        obtain ⟨lraw, hlraw, hequiv⟩ := nestedLoop_rel
          (fun c => getNestedItems sources scenes n c)
          (fun c => nestedTraversal sources scenes n c)
          (childSceneIds sources scene)
          (fun c _ l hl => ih c l hl) nested hloop
        refine ⟨scene.items ++ lraw, ?_, ?_⟩
        · rw [nestedTraversal, hscene]
          simp only []
          rw [hlraw]
        · rw [← h']
          have hq : DedupEquiv (scene.items ++ nested) (scene.items ++ lraw) :=
            dedupEquiv_append ⟨fun _ => rfl, fun _ => Iff.rfl⟩ hequiv
          exact hq.1 []

/-! ## Claim C9 -/

/-- C9: `getNestedItems` returns each `sceneItemId` at most once, even when
a child scene is reachable along two different paths: whenever it returns
normally its result is exactly the raw depth-first traversal (this scene's
items followed by each nested scene's items, in stored order) deduplicated
by `sceneItemId` with the first occurrence winning, and the resulting id
list has no duplicates. -/
theorem C9_getNestedItems_dedup (sources : List SourceRec)
    (scenes : List IScene) (fuel : Nat) (selfId : String)
    (res : List ISceneItem)
    (h : getNestedItems sources scenes fuel selfId = some res) :
    ∃ raw, nestedTraversal sources scenes fuel selfId = some raw
      ∧ res = dedupBy [] raw
      ∧ (idsOf res).Nodup := by
  obtain ⟨raw, hraw, hres⟩ := getNestedItems_traversal fuel selfId res h
  exact ⟨raw, hraw, hres, hres ▸ nodup_idsOf_dedupBy raw []⟩

/-- Witness for C9 on the diamond store (`S` contains `A` and `B`, both
containing `C`): `C`'s item `cCam` shows up once although `C` is reached
twice; the raw traversal contains it twice. -/
theorem C9_getNestedItems_dedup_witness :
    ∃ raw, nestedTraversal dSources dScenes 3 "S" = some raw
      ∧ [exItem "sA" "A" 1, exItem "sB" "B" 2, exItem "aC" "C" 3,
          exItem "cCam" "cam" 5, exItem "bC" "C" 4] = dedupBy [] raw
      ∧ (idsOf [exItem "sA" "A" 1, exItem "sB" "B" 2, exItem "aC" "C" 3,
          exItem "cCam" "cam" 5, exItem "bC" "C" 4]).Nodup :=
  C9_getNestedItems_dedup dSources dScenes 3 "S"
    [exItem "sA" "A" 1, exItem "sB" "B" 2, exItem "aC" "C" 3,
      exItem "cCam" "cam" 5, exItem "bC" "C" 4] rfl

/-! ## Invariant-preservation lemmas (for C7) -/

lemma idsOf_filter_ne (items : List ISceneItem) (x : String) :
    idsOf (items.filter (fun s => s.sceneItemId != x))
      = (idsOf items).filter (fun id => id != x) := by
  induction items with
  | nil => rfl
  | cons it rest ih =>
    by_cases hx : it.sceneItemId = x
    · simp only [List.filter_cons, hx, bne_self_eq_false, Bool.false_eq_true,
        if_false, idsOf_cons]
      exact ih
    · have hb : (it.sceneItemId != x) = true := by simpa using hx
      simp only [List.filter_cons, hb, if_true, idsOf_cons]
      rw [ih]

lemma idsOf_updateFirstItem (f : ISceneItem → ISceneItem)
    (hf : ∀ it, (f it).sceneItemId = it.sceneItemId) (x : String) :
    ∀ l : List ISceneItem, idsOf (updateFirstItem f x l) = idsOf l := by
  intro l
  induction l with
  | nil => rfl
  | cons it rest ih =>
    rw [updateFirstItem]
    by_cases hx : it.sceneItemId == x
    · rw [if_pos hx, idsOf_cons, idsOf_cons, hf]
    · rw [if_neg hx, idsOf_cons, idsOf_cons, ih]

lemma arrayItems_length (sources : List SourceRec) :
    ∀ infos : List ISceneItemInfo,
    (∀ i ∈ infos, (getSource sources i.sourceId).isSome) →
    (infos.filterMap (fun item => (getSource sources item.sourceId).map
      (fun s => toArrayItem s item))).length = infos.length := by
  intro infos
  induction infos with
  | nil => intro _; rfl
  | cons i rest ih =>
    intro h
    obtain ⟨s, hs⟩ := Option.isSome_iff_exists.mp (h i (List.mem_cons_self i rest))
    rw [List.filterMap_cons, hs]
    simp only [Option.map_some']
    rw [List.length_cons, ih (fun x hx => h x (List.mem_cons_of_mem _ hx))]
    rfl

lemma addSourcesLoop_spec (obsIds : Nat → Nat) :
    ∀ (ars : List ArrayItem) (infos : List ISceneItemInfo) (idx : Nat)
      (scene : IScene), ars.length = infos.length →
    ∃ scene', addSourcesLoop obsIds idx infos ars scene = some scene'
      ∧ scene'.id = scene.id
      ∧ scene'.activeItemIds = scene.activeItemIds
      ∧ idsOf scene'.items
          = (infos.map (fun i => i.id)).reverse ++ idsOf scene.items := by
  intro ars
  induction ars with
  | nil =>
    intro infos idx scene hlen
    have : infos = [] := List.length_eq_zero.mp hlen.symm
    subst this
    exact ⟨scene, rfl, rfl, rfl, by simp⟩
  | cons a ars' ih =>
    intro infos idx scene hlen
    cases infos with
    | nil => simp at hlen
    | cons i infos' =>
      have hlen' : ars'.length = infos'.length := by
        simpa using hlen
      obtain ⟨scene', hloop, hid, hact, hids⟩ := ih infos' (idx + 1)
        (loadItemAttributes
          (ADD_SOURCE_TO_SCENE scene i.id i.sourceId (obsIds idx)) i.id a) hlen'
      refine ⟨scene', by rw [addSourcesLoop]; exact hloop, hid, hact, ?_⟩
      rw [hids]
      have hmid : idsOf (loadItemAttributes
          (ADD_SOURCE_TO_SCENE scene i.id i.sourceId (obsIds idx)) i.id a).items
          = i.id :: idsOf scene.items := by
        rw [loadItemAttributes]
        rw [idsOf_updateFirstItem (applyItemAttributes a) (fun _ => rfl) i.id]
        rfl
      rw [hmid]
      simp

lemma lookupOrder_ids (items : List ISceneItem) :
    ∀ (order : List String) (its : List ISceneItem),
    lookupOrder items order = some its → idsOf its = order := by
  intro order
  induction order with
  | nil =>
    intro its h
    have : its = [] := by simpa [lookupOrder] using h.symm
    rw [this]
    rfl
  | cons id rest ih =>
    intro its h
    rw [lookupOrder] at h
    cases hf : items.find? (fun s => s.sceneItemId == id) with
    | none => rw [hf] at h; simp at h
    | some it =>
      rw [hf] at h
      cases hrest : lookupOrder items rest with
      | none => rw [hrest] at h; simp at h
      | some l =>
        rw [hrest] at h
        have h' : it :: l = its := by simpa using h
        have hit : it.sceneItemId = id := by
          have hp := List.find?_some hf
          exact eq_of_beq hp
        rw [← h', idsOf_cons, hit, ih l hrest]

/-! ## Claim C7 -/

/-- Counterexample to C7 as stated: `addSource` called with the
caller-supplied `sceneItemId` `"a0"`, which already names an item of the
scene, succeeds and unshifts a SECOND record with the same `sceneItemId` —
it neither rejects nor replaces, so the uniqueness invariant is violated
after the operation. -/
theorem C7_counterexample :
    addSource exSources exScenesA 0 "S1" "cam" (some "a0") "n1" 5
      = some (Except.ok (some "a0"), [exSceneDupAfter])
    ∧ sceneInvariant exSceneA
    ∧ ¬ sceneInvariant exSceneDupAfter :=
  ⟨rfl, by decide, by decide⟩

/-- C7 amended: the two store invariants (every active id has an item; no
duplicate `sceneItemId`) are preserved by every operation under the
freshness side conditions the source implicitly assumes: `addSource` when
the (caller-supplied or fresh) item id is not already present;
`addSources` when every entry's source resolves and the supplied ids are
pairwise distinct and not already present; `removeItem`, `makeItemsActive`
and `setName` whenever they return normally; `setSourceOrder` when the
supplied order is a permutation of the current ids.  `addSource` with a
caller-supplied `sceneItemId` already in `items` violates uniqueness (see
the counterexample): the code neither rejects nor replaces. -/
theorem C7_invariants_preserved :
    (∀ (sources : List SourceRec) (scenes : List IScene) (fuel : Nat)
      (selfId sourceId : String) (optItemId : Option String) (freshId : String)
      (obsId : Nat) (itemId : String) (scenes' : List IScene) (scene : IScene),
      addSource sources scenes fuel selfId sourceId optItemId freshId obsId
        = some (Except.ok (some itemId), scenes') →
      getScene scenes selfId = some scene → sceneInvariant scene →
      itemId ∉ idsOf scene.items →
      ∃ scene', getScene scenes' selfId = some scene' ∧ sceneInvariant scene')
    ∧ (∀ (sources : List SourceRec) (scenes : List IScene) (selfId : String)
      (infos : List ISceneItemInfo) (obsIds : Nat → Nat)
      (scenes' : List IScene) (scene : IScene),
      addSources sources scenes selfId infos obsIds = some scenes' →
      getScene scenes selfId = some scene → sceneInvariant scene →
      (∀ i ∈ infos, (getSource sources i.sourceId).isSome) →
      (infos.map (fun i => i.id)).Nodup →
      (∀ i ∈ infos, i.id ∉ idsOf scene.items) →
      ∃ scene', getScene scenes' selfId = some scene' ∧ sceneInvariant scene')
    ∧ (∀ (scenes : List IScene) (selfId sceneItemId : String)
      (scenes' : List IScene) (scene : IScene),
      removeItem scenes selfId sceneItemId = some (Except.ok (), scenes') →
      getScene scenes selfId = some scene → sceneInvariant scene →
      ∃ scene', getScene scenes' selfId = some scene' ∧ sceneInvariant scene')
    ∧ (∀ (scenes : List IScene) (selfId : String) (ids : List String)
      (scenes' : List IScene) (scene : IScene),
      makeItemsActive scenes selfId ids = some (Except.ok (), scenes') →
      getScene scenes selfId = some scene → sceneInvariant scene →
      ∃ scene', getScene scenes' selfId = some scene' ∧ sceneInvariant scene')
    ∧ (∀ (scenes : List IScene) (selfId sceneItemId : String)
      (positionDelta : Int) (order : List String) (scenes' : List IScene)
      (scene : IScene),
      setSourceOrder scenes selfId sceneItemId positionDelta order = some scenes' →
      getScene scenes selfId = some scene → sceneInvariant scene →
      order.Perm (idsOf scene.items) →
      ∃ scene', getScene scenes' selfId = some scene' ∧ sceneInvariant scene')
    ∧ (∀ (sources : List SourceRec) (scenes : List IScene)
      (selfId newName : String) (scenes' : List IScene) (scene : IScene),
      setName sources scenes selfId newName = some scenes' →
      getScene scenes selfId = some scene → sceneInvariant scene →
      ∃ scene', getScene scenes' selfId = some scene' ∧ sceneInvariant scene') := by
  refine ⟨?_, ?_, ?_, ?_, ?_, ?_⟩
  · -- addSource
    intro sources scenes fuel selfId sourceId optItemId freshId obsId itemId
      scenes' scene h hscene hinv hfresh
    obtain ⟨scene', hget, hitems, hact⟩ := addSource_ok_items h hscene
    refine ⟨scene', hget, ?_, ?_⟩
    · intro id hid
      rw [hact] at hid
      rcases List.mem_cons.mp hid with rfl | hid'
      · rw [hitems, idsOf_cons]
        exact List.mem_cons_self _ _
      · simp at hid'
    · rw [hitems, idsOf_cons, List.nodup_cons]
      exact ⟨hfresh, hinv.2⟩
  · -- addSources
    intro sources scenes selfId infos obsIds scenes' scene h hscene hinv
      hres hnodup hfreshadd
    rw [addSources] at h
    split at h
    · simp at h
    · rename_i oscr scene0 hscene0
      have heq : scene0 = scene := by
        rw [hscene0] at hscene
        exact Option.some.inj hscene
      subst heq
      have hlen := arrayItems_length sources infos hres
      obtain ⟨scene'', hloop, hid, hact, hids⟩ := addSourcesLoop_spec obsIds
        (infos.filterMap (fun item => (getSource sources item.sourceId).map
          (fun s => toArrayItem s item))) infos 0 scene0 hlen
      have h2 : Option.map (updateScene scenes selfId)
          (addSourcesLoop obsIds 0 infos
            (infos.filterMap (fun item => (getSource sources item.sourceId).map
              (fun s => toArrayItem s item))) scene0) = some scenes' := h
      rw [hloop] at h2
      have hsc : updateScene scenes selfId scene'' = scenes' := by simpa using h2
      refine ⟨scene'', by rw [← hsc]; exact getScene_updateScene_of_id hscene0 hid,
        ?_, ?_⟩
      · intro id hid'
        rw [hact] at hid'
        rw [hids]
        exact List.mem_append.mpr (Or.inr (hinv.1 id hid'))
      · rw [hids]
        rw [List.nodup_append]
        refine ⟨List.nodup_reverse.mpr hnodup, hinv.2, ?_⟩
        intro x hx
        have hx' : x ∈ infos.map (fun i => i.id) := List.mem_reverse.mp hx
        obtain ⟨i, hi, hix⟩ := List.mem_map.mp hx'
        intro hmem
        exact hfreshadd i hi (hix ▸ hmem)
  · -- removeItem
    intro scenes selfId sceneItemId scenes' scene h hscene hinv
    rw [removeItem] at h
    split at h
    · simp at h
    · rename_i oscr scene0 hscene0
      have heq : scene0 = scene := by
        rw [hscene0] at hscene
        exact Option.some.inj hscene
      subst heq
      split at h
      · simp at h
      · have hsc : updateScene scenes selfId
            (REMOVE_SOURCE_FROM_SCENE scene0 sceneItemId) = scenes' := by
          simpa using h
        refine ⟨REMOVE_SOURCE_FROM_SCENE scene0 sceneItemId,
          by rw [← hsc]; exact getScene_updateScene_of_id hscene0 rfl, ?_, ?_⟩
        · intro id hid
          have hid2 : id ∈ scene0.activeItemIds ∧ id ≠ sceneItemId := by
            revert hid
            show id ∈ (if scene0.activeItemIds.contains sceneItemId = true then
                without scene0.activeItemIds sceneItemId
              else scene0.activeItemIds) → _
            by_cases hc : scene0.activeItemIds.contains sceneItemId = true
            · rw [if_pos hc]
              intro hid
              have := List.mem_filter.mp hid
              exact ⟨this.1, by simpa using this.2⟩
            · rw [if_neg hc]
              intro hid
              refine ⟨hid, ?_⟩
              intro heq2
              rw [heq2] at hid
              exact hc (contains_eq_true_of_mem hid)
          show id ∈ idsOf (scene0.items.filter (fun s => s.sceneItemId != sceneItemId))
          rw [idsOf_filter_ne]
          rw [List.mem_filter]
          exact ⟨hinv.1 id hid2.1, by simpa using hid2.2⟩
        · show (idsOf (scene0.items.filter
            (fun s => s.sceneItemId != sceneItemId))).Nodup
          rw [idsOf_filter_ne]
          exact hinv.2.filter _
  · -- makeItemsActive
    intro scenes selfId ids scenes' scene h hscene hinv
    rw [makeItemsActive] at h
    split at h
    · simp at h
    · rename_i oscr scene0 hscene0
      have heq : scene0 = scene := by
        rw [hscene0] at hscene
        exact Option.some.inj hscene
      subst heq
      split at h
      · rename_i hall
        have hsc : updateScene scenes selfId (MAKE_SOURCES_ACTIVE scene0 ids)
            = scenes' := by simpa using h
        refine ⟨MAKE_SOURCES_ACTIVE scene0 ids,
          by rw [← hsc]; exact getScene_updateScene_of_id hscene0 rfl, ?_, hinv.2⟩
        intro id hid
        have hsome : (getItem scene0 id).isSome :=
          List.all_eq_true.mp hall id hid
        obtain ⟨it, hit⟩ := Option.isSome_iff_exists.mp hsome
        have hmem := List.mem_of_find?_eq_some hit
        have hidit : it.sceneItemId = id := by
          have hp := List.find?_some hit
          exact eq_of_beq hp
        exact List.mem_map.mpr ⟨it, hmem, hidit⟩
      · simp at h
  · -- setSourceOrder
    intro scenes selfId sceneItemId positionDelta order scenes' scene h hscene
      hinv hperm
    rw [setSourceOrder] at h
    split at h
    · simp at h
    · rename_i oscr scene0 hscene0
      have heq : scene0 = scene := by
        rw [hscene0] at hscene
        exact Option.some.inj hscene
      subst heq
      rw [SET_SOURCE_ORDER] at h
      cases hlo : lookupOrder scene0.items order with
      | none => rw [hlo] at h; simp at h
      | some its =>
        rw [hlo] at h
        have hsc : updateScene scenes selfId { scene0 with items := its }
            = scenes' := by simpa using h
        have hids : idsOf its = order := lookupOrder_ids scene0.items order its hlo
        refine ⟨{ scene0 with items := its },
          by rw [← hsc]; exact getScene_updateScene_of_id hscene0 rfl, ?_, ?_⟩
        · intro id hid
          show id ∈ idsOf its
          rw [hids]
          exact hperm.mem_iff.mpr (hinv.1 id hid)
        · show (idsOf its).Nodup
          rw [hids]
          exact (hperm.nodup_iff).mpr hinv.2
  · -- setName
    intro sources scenes selfId newName scenes' scene h hscene hinv
    rw [setName] at h
    split at h
    · simp at h
    · split at h
      · simp at h
      · rename_i osrc src hsrc oscr scene0 hscene0
        have heq : scene0 = scene := by
          rw [hscene0] at hscene
          exact Option.some.inj hscene
        subst heq
        have hsc : updateScene scenes selfId (SET_NAME scene0 newName)
            = scenes' := by simpa using h
        exact ⟨SET_NAME scene0 newName,
          by rw [← hsc]; exact getScene_updateScene_of_id hscene0 rfl,
          hinv.1, hinv.2⟩

/-- Witness for the amended C7: adding `cam` with the fresh id `n1` to the
concrete one-scene store preserves both invariants. -/
theorem C7_invariants_preserved_witness :
    ∃ scene', getScene [exSceneAAfter] "S1" = some scene'
      ∧ sceneInvariant scene' :=
  C7_invariants_preserved.1 exSources exScenesA 0 "S1" "cam" none "n1" 5 "n1"
    [exSceneAAfter] exSceneA rfl rfl (by decide) (by decide)
